import Mathlib

/-!
Verification of the registration lifecycle, expiry classification, CSV export,
notification aggregation and category-transfer submission logic of the
registration admin dashboard.  Timestamps are modelled as Unix milliseconds
(`Int`); nullable database columns are modelled as `Option`.
-/

namespace RegApp

/-- Lifecycle status of a registration (`'pending' | 'approved' | 'rejected'`). -/
inductive Status where
  | pending
  | approved
  | rejected
deriving DecidableEq

/-- Joined category display fields (`categories (name_english, name_malayalam)`). -/
structure JoinedCategory where
  name_english : String
  name_malayalam : String
deriving DecidableEq

/-- Joined panchayath display fields (`panchayaths (name, district)`). -/
structure JoinedPanchayath where
  name : String
  district : String
deriving DecidableEq

/-- A `registrations` row as used by the admin components.  Nullable columns
(`approved_date`, `approved_by`, `expiry_date`, the joined objects) are `Option`. -/
structure Registration where
  id : String
  customer_id : String
  full_name : String
  mobile_number : String
  address : String
  status : Status
  fee : Int
  created_at : Int
  approved_date : Option Int
  approved_by : Option String
  expiry_date : Option Int
  category_id : String
  categories : Option JoinedCategory
  panchayaths : Option JoinedPanchayath
deriving DecidableEq

/-- A `categories` row (only the fields the verified code paths read). -/
structure Category where
  id : String
  expiry_days : Option Nat
  is_active : Bool
deriving DecidableEq

/-- JavaScript `new Date(x).getTime()` on a nullable timestamp column:
`new Date(null)` is the Unix epoch (time 0), a present timestamp is itself. -/
def jsDateMs : Option Int → Int
  | none => 0
  | some t => t

/-- JavaScript truthiness fallback `v || dflt` on a nullable string
(null and the empty string are both falsy). -/
def jsOrString (v : Option String) (dflt : String) : String :=
  match v with
  | none => dflt
  | some s => if s = "" then dflt else s

/-- JavaScript `category?.expiry_days || 30` (missing category, missing
`expiry_days`, and the falsy value 0 all fall back to 30). -/
def jsOrThirty (v : Option Nat) : Nat :=
  match v with
  | none => 30
  | some d => if d = 0 then 30 else d

/-- `1000 * 60 * 60 * 24` milliseconds. -/
def msPerDay : Int := 1000 * 60 * 60 * 24

/-- Exact value of JavaScript `Math.ceil(a / b)` for integers with `0 < b`. -/
def ceilDiv (a b : Int) : Int := -((-a) / b)

/-- `Math.ceil((new Date(expiry).getTime() - now.getTime()) / (1000 * 60 * 60 * 24))`,
the days-remaining computation shared by the notification fetch and the admin filter. -/
def daysLeftMs (now : Int) (expiry : Option Int) : Int :=
  ceilDiv (jsDateMs expiry - now) msPerDay

/-- The view-model built by `fetchExpiringRegistrations` for one registration. -/
structure ProcessedReg where
  id : String
  name : String
  phone : String
  esep_id : String
  category : String
  location : String
  created_at : Int
  days_remaining : Int
deriving DecidableEq

/-- The per-row mapping inside `fetchExpiringRegistrations`. -/
def processReg (now : Int) (r : Registration) : ProcessedReg :=
  { id := r.id
    name := r.full_name
    phone := r.mobile_number
    esep_id := r.customer_id
    category := jsOrString (r.categories.map (fun c => c.name_english)) "Unknown"
    location := r.address
    created_at := r.created_at
    days_remaining := daysLeftMs now r.expiry_date }

/-- The fetch in `fetchExpiringRegistrations`: the query filters on
`status = 'pending'` server-side, then each row gets its days-remaining. -/
def processRegs (store : List Registration) (now : Int) : List ProcessedReg :=
  (store.filter (fun r => decide (r.status = .pending))).map (processReg now)

/-- The sort order `(a, b) => a.days_remaining - b.days_remaining`. -/
def byDays (a b : ProcessedReg) : Prop := a.days_remaining ≤ b.days_remaining

instance : DecidableRel byDays :=
  fun a b => inferInstanceAs (Decidable (a.days_remaining ≤ b.days_remaining))

instance : IsTotal ProcessedReg byDays := ⟨fun _ _ => le_total _ _⟩

instance : IsTrans ProcessedReg byDays := ⟨fun _ _ _ h1 h2 => le_trans h1 h2⟩

/-- The `expired` bucket: `days_remaining <= 0`, sorted ascending (JS `.sort` is
stable; insertion sort on `≤` models it). -/
def expiredList (store : List Registration) (now : Int) : List ProcessedReg :=
  List.insertionSort byDays
    ((processRegs store now).filter (fun p => decide (p.days_remaining ≤ 0)))

/-- The `expiring` bucket: `days_remaining > 0 && days_remaining <= 3`, sorted ascending. -/
def expiringList (store : List Registration) (now : Int) : List ProcessedReg :=
  List.insertionSort byDays
    ((processRegs store now).filter
      (fun p => decide (0 < p.days_remaining) && decide (p.days_remaining ≤ 3)))

/-- The list handed to `ExpiringRegistrationsAlert`:
`[...expiredRegistrations, ...expiringRegistrations]`. -/
def combinedAlertList (store : List Registration) (now : Int) : List ProcessedReg :=
  expiredList store now ++ expiringList store now

/-- `fetchCategories` in RegistrationsTab: active categories only. -/
def fetchActiveCategories (catStore : List Category) : List Category :=
  catStore.filter (fun c => c.is_active)

/-- `categories.find(c => c.id === registration.category_id)?.expiry_days || 30`. -/
def expiryDaysFor (cats : List Category) (cid : String) : Nat :=
  jsOrThirty ((cats.find? (fun c => c.id == cid)).bind (fun c => c.expiry_days))

/-- Update the single row matching `id` (the `.update(...).eq('id', id)` call). -/
def applyTo (id : String) (f : Registration → Registration)
    (regs : List Registration) : List Registration :=
  regs.map (fun r => if r.id == id then f r else r)

/-- `updateData.expiry_date`: set only when approving, the cached row is found,
and it has no expiry yet; the value is `new Date()` plus the category's days
(in a fixed-length-day millisecond model). -/
def newExpiryFor (regs : List Registration) (cats : List Category) (id : String)
    (st : Status) (now : Int) : Option Int :=
  if st = .approved then
    match regs.find? (fun r => r.id == id) with
    | some r =>
      if r.expiry_date = none then
        some (now + (expiryDaysFor cats r.category_id : Int) * msPerDay)
      else none
    | none => none
  else none

/-- The partial update object of `updateRegistrationStatus`: the status, plus
`approved_date`/`approved_by` only when approving, plus the optional expiry. -/
def statusUpdate (st : Status) (now : Int) (newExpiry : Option Int)
    (r : Registration) : Registration :=
  { r with
    status := st
    approved_date := if st = .approved then some now else r.approved_date
    approved_by := if st = .approved then some "eva" else r.approved_by
    expiry_date := match newExpiry with
      | some e => some e
      | none => r.expiry_date }

/-- `updateRegistrationStatus(id, status)` from RegistrationsTab. -/
def updateRegistrationStatus (regs : List Registration) (cats : List Category)
    (id : String) (st : Status) (now : Int) : List Registration :=
  applyTo id (statusUpdate st now (newExpiryFor regs cats id st now)) regs

/-- The partial update object of `restoreRegistration`. -/
def restoreUpdate (r : Registration) : Registration :=
  { r with status := .pending, approved_date := none, approved_by := none }

/-- `restoreRegistration(id)` from RegistrationsTab. -/
def restoreRegistration (regs : List Registration) (id : String) : List Registration :=
  applyTo id restoreUpdate regs

/-- The expiry clause of `filteredRegistrations`: an empty filter matches all,
approved registrations never match, threshold 0 matches `daysLeft <= 0`, any
other threshold matches `daysLeft <= filterDays && daysLeft >= 0`. -/
def matchesExpiry (reg : Registration) (now : Int) (filterDays : Option Nat) : Bool :=
  match filterDays with
  | none => true
  | some n =>
    if reg.status = .approved then false
    else
      let daysLeft := daysLeftMs now reg.expiry_date
      if n = 0 then decide (daysLeft ≤ 0)
      else decide (daysLeft ≤ (n : Int)) && decide (0 ≤ daysLeft)

/-- A calendar date, the output of the date-fns calendar decomposition. -/
structure SimpleDate where
  year : Nat
  month : Nat
  day : Nat
deriving DecidableEq

/-- Two-digit zero padding of a date-fns `dd`/`MM` field. -/
def pad2 (n : Nat) : String := if n < 10 then "0" ++ toString n else toString n

/-- date-fns `format(d, 'dd/MM/yyyy')`. -/
def formatDateDMY (d : SimpleDate) : String :=
  pad2 d.day ++ "/" ++ pad2 d.month ++ "/" ++ toString d.year

/-- date-fns `format(d, 'yyyy-MM-dd')`. -/
def formatDateYMD (d : SimpleDate) : String :=
  toString d.year ++ "-" ++ pad2 d.month ++ "-" ++ pad2 d.day

/-- JavaScript `Array.join(sep)`. -/
def joinWith (sep : String) : List String → String
  | [] => ""
  | [x] => x
  | x :: y :: xs => x ++ sep ++ joinWith sep (y :: xs)

/-- The header cells of the CSV export. -/
def csvHeaders : List String :=
  ["Name", "Mobile Number", "Panchayath", "Category", "Registered Date", "Expiry Date"]

/-- One data row of `handleExportRegistrations`; `toCal` is the calendar
decomposition of a millisecond timestamp supplied by the date library. -/
def csvRow (toCal : Int → SimpleDate) (reg : Registration) : String :=
  joinWith ","
    [ "\"" ++ reg.full_name ++ "\""
    , reg.mobile_number
    , "\"" ++ jsOrString (reg.panchayaths.map (fun p => p.name)) "N/A" ++ "\""
    , "\"" ++ jsOrString (reg.categories.map (fun c => c.name_english)) "N/A" ++ "\""
    , formatDateDMY (toCal reg.created_at)
    , match reg.expiry_date with
      | some e => formatDateDMY (toCal e)
      | none => "N/A" ]

/-- The full CSV text: joined header row, then one row per exported registration. -/
def csvData (toCal : Int → SimpleDate) (regs : List Registration) : String :=
  joinWith "\n" (joinWith "," csvHeaders :: regs.map (csvRow toCal))

/-- The download file name: `registrations-export-<yyyy-MM-dd>.csv`. -/
def exportFileName (today : SimpleDate) : String :=
  "registrations-export-" ++ formatDateYMD today ++ ".csv"

/-- A `category_transfer_requests` row as inserted by the component. -/
structure TransferRequest where
  registration_id : String
  from_category_id : String
  to_category_id : String
  mobile_number : String
  customer_id : String
  full_name : String
  reason : Option String
  status : Status
deriving DecidableEq

/-- `fetchCategories` in CategoryTransferRequest: active categories whose id
differs from the registration's current category. -/
def transferCategories (catStore : List Category) (reg : Registration) : List Category :=
  catStore.filter (fun c => c.is_active && c.id != reg.category_id)

/-- `handleSubmitTransferRequest`: the falsy guard on the selection, then the
inserted row with the snapshot fields and `reason: reason || null`. -/
def submitTransferRequest (reg : Registration) (selectedCategoryId : String)
    (why : String) : Option TransferRequest :=
  if selectedCategoryId = "" then none
  else
    some
      { registration_id := reg.id
        from_category_id := reg.category_id
        to_category_id := selectedCategoryId
        mobile_number := reg.mobile_number
        customer_id := reg.customer_id
        full_name := reg.full_name
        reason := if why = "" then none else some why
        status := .pending }

/-- Component state of `NotificationBell`: the two bucket sizes, the
acknowledged flag, the alert-dialog visibility, the pending auto-surface
timer (remaining milliseconds) and whether the component is mounted. -/
structure BellState where
  expiredCount : Nat
  expiringCount : Nat
  acknowledged : Bool
  showAlert : Bool
  timer : Option Nat
  mounted : Bool
deriving DecidableEq

/-- The auto-surface condition of the alert effect:
`(expired.length > 0 || expiring.length > 0) && !acknowledged`. -/
def bellCond (s : BellState) : Bool :=
  (decide (0 < s.expiredCount) || decide (0 < s.expiringCount)) && !s.acknowledged

/-- One run of the alert effect: the previous cleanup has cancelled any old
timer; a fresh 2000 ms timer is armed exactly when the condition holds. -/
def runAlertEffect (s : BellState) : BellState :=
  { s with timer := if bellCond s then some 2000 else none }

/-- The external events `NotificationBell` reacts to. -/
inductive BellEvent where
  | refresh (ne nx : Nat)
  | elapse (t : Nat)
  | acknowledge
  | click
  | closeAlert
  | teardown
deriving DecidableEq

/-- The transition function of `NotificationBell`: a fetch result updates the
counts and re-runs the effect when a dependency changed; elapsing time fires an
armed timer (`setShowAlert(true)`); `onGotIt` sets `acknowledged` and re-runs
the effect; a bell click opens the dialog when a bucket is non-empty; closing
the dialog and unmounting behave as in the component. -/
def bellStep (s : BellState) : BellEvent → BellState
  | .refresh ne nx =>
    if !s.mounted then s
    else if ne = s.expiredCount ∧ nx = s.expiringCount then s
    else runAlertEffect { s with expiredCount := ne, expiringCount := nx }
  | .elapse t =>
    match s.timer with
    | none => s
    | some rem =>
      if rem ≤ t then { s with timer := none, showAlert := true }
      else { s with timer := some (rem - t) }
  | .acknowledge =>
    if !s.mounted then s
    else if s.acknowledged then s
    else runAlertEffect { s with acknowledged := true }
  | .click =>
    if s.mounted && (decide (0 < s.expiredCount) || decide (0 < s.expiringCount)) then
      { s with showAlert := true }
    else s
  | .closeAlert => { s with showAlert := false }
  | .teardown => { s with mounted := false, timer := none }

/-! ### Helper lemmas -/

/-- A single-row update only rewrites the row the lookup finds. -/
theorem find?_applyTo (id : String) (f : Registration → Registration)
    (hf : ∀ r, (f r).id = r.id) (store : List Registration) :
    (applyTo id f store).find? (fun r => r.id == id)
      = (store.find? (fun r => r.id == id)).map f := by
  induction store with
  | nil => rfl
  | cons r t ih =>
    simp only [applyTo, List.map_cons] at ih ⊢
    by_cases h : (r.id == id) = true
    · have hfr : ((f r).id == id) = true := by rw [hf r]; exact h
      rw [if_pos h, List.find?_cons_of_pos (p := fun r : Registration => r.id == id) _ hfr,
        List.find?_cons_of_pos (p := fun r : Registration => r.id == id) _ h, Option.map_some']
    · rw [if_neg h, List.find?_cons_of_neg (p := fun r : Registration => r.id == id) _ h,
        List.find?_cons_of_neg (p := fun r : Registration => r.id == id) _ h]
      exact ih

/-- Ceiling division against an integer bound (`0 < b`):
`ceilDiv a b ≤ d` exactly when `a ≤ d * b`. -/
theorem ceilDiv_le_iff (a b d : Int) (hb : 0 < b) : ceilDiv a b ≤ d ↔ a ≤ d * b := by
  rw [ceilDiv, neg_le, Int.le_ediv_iff_mul_le hb, neg_mul, neg_le_neg_iff]

theorem msPerDay_pos : (0 : Int) < msPerDay := by norm_num [msPerDay]

/-! ### Claim C1 -/

/-- Concrete category for claim C1: 45-day validity. -/
def catC1 : Category := { id := "c1", expiry_days := some 45, is_active := true }

/-- Concrete pending registration for claim C1, created at time 0, no expiry. -/
def regC1 : Registration :=
  { id := "r1", customer_id := "CUST1", full_name := "Alice", mobile_number := "111"
  , address := "addr", status := .pending, fee := 0, created_at := 0
  , approved_date := none, approved_by := none, expiry_date := none
  , category_id := "c1", categories := none, panchayaths := none }

/-- Claim C1 fails as stated: approving `regC1` (created at time 0, category
expiry 45 days) at `now` = 1 day after creation sets `expiry_date` to
`now + 45 days` = 46 days, which differs from `created_at + 45 days` = 45 days. -/
theorem c1_counterexample :
    ((updateRegistrationStatus [regC1] [catC1] "r1" .approved 86400000).find?
        (fun r => r.id == "r1")).map (fun r => r.expiry_date)
      = some (some (46 * 86400000)) ∧
    (46 * 86400000 : Int) ≠ regC1.created_at + 45 * 86400000 := by
  constructor
  · decide
  · decide

/-- Claim C1 (amended): approving a registration found in the cached list sets
its status to approved; when it has no `expiry_date` yet, `expiry_date` becomes
the approval instant `now` plus the category's `expiry_days` (default 30) in
days; an already-set `expiry_date` is never changed, including by a repeated
approve. -/
theorem c1_approve_expiry (store : List Registration) (cats : List Category)
    (id : String) (now : Int) (reg : Registration)
    (hfind : store.find? (fun r => r.id == id) = some reg) :
    ∃ reg2,
      (updateRegistrationStatus store cats id .approved now).find?
          (fun r => r.id == id) = some reg2 ∧
      reg2.status = .approved ∧
      (reg.expiry_date = none →
        reg2.expiry_date
          = some (now + (expiryDaysFor cats reg.category_id : Int) * msPerDay)) ∧
      (∀ e, reg.expiry_date = some e → reg2.expiry_date = some e) ∧
      ∀ now2, ∃ reg3,
        (updateRegistrationStatus (updateRegistrationStatus store cats id .approved now)
            cats id .approved now2).find? (fun r => r.id == id) = some reg3 ∧
        reg3.expiry_date = reg2.expiry_date := by
  have h1 : (updateRegistrationStatus store cats id .approved now).find?
      (fun r => r.id == id)
      = some (statusUpdate .approved now (newExpiryFor store cats id .approved now) reg) := by
    rw [updateRegistrationStatus,
      find?_applyTo id (statusUpdate .approved now (newExpiryFor store cats id .approved now))
        (fun _ => rfl) store,
      hfind, Option.map_some']
  refine ⟨statusUpdate .approved now (newExpiryFor store cats id .approved now) reg,
    h1, rfl, ?_, ?_, ?_⟩
  · intro he
    simp [statusUpdate, newExpiryFor, hfind, he]
  · intro e he
    simp [statusUpdate, newExpiryFor, hfind, he]
  · intro now2
    have hsome : (statusUpdate .approved now
        (newExpiryFor store cats id .approved now) reg).expiry_date ≠ none := by
      cases he : reg.expiry_date with
      | none => simp [statusUpdate, newExpiryFor, hfind, he]
      | some e => simp [statusUpdate, newExpiryFor, hfind, he]
    have hnew2 : newExpiryFor (updateRegistrationStatus store cats id .approved now)
        cats id .approved now2 = none := by
      rw [newExpiryFor, if_pos rfl, h1]
      simp [hsome]
    refine ⟨statusUpdate .approved now2 none
      (statusUpdate .approved now (newExpiryFor store cats id .approved now) reg), ?_, rfl⟩
    rw [updateRegistrationStatus, hnew2,
      find?_applyTo id (statusUpdate .approved now2 none) (fun _ => rfl)
        (updateRegistrationStatus store cats id .approved now),
      h1, Option.map_some']

/-- Witness for the amended C1 at the concrete registration `regC1`. -/
theorem c1_approve_expiry_witness :
    ∃ reg2,
      (updateRegistrationStatus [regC1] [catC1] "r1" .approved 86400000).find?
          (fun r => r.id == "r1") = some reg2 ∧
      reg2.status = .approved ∧
      (regC1.expiry_date = none →
        reg2.expiry_date
          = some (86400000 + (expiryDaysFor [catC1] regC1.category_id : Int) * msPerDay)) ∧
      (∀ e, regC1.expiry_date = some e → reg2.expiry_date = some e) ∧
      ∀ now2, ∃ reg3,
        (updateRegistrationStatus
            (updateRegistrationStatus [regC1] [catC1] "r1" .approved 86400000)
            [catC1] "r1" .approved now2).find? (fun r => r.id == "r1") = some reg3 ∧
        reg3.expiry_date = reg2.expiry_date :=
  c1_approve_expiry [regC1] [catC1] "r1" 86400000 regC1 (by decide)

/-! ### Claim C4 -/

/-- Claim C4: restoring an approved or rejected registration sets its status to
pending and clears `approved_date` and `approved_by` to null; the record-update
equality shows every other field, `expiry_date` included, is unchanged. -/
theorem c4_restore (store : List Registration) (id : String) (reg : Registration)
    (hfind : store.find? (fun r => r.id == id) = some reg)
    (_hst : reg.status = .approved ∨ reg.status = .rejected) :
    (restoreRegistration store id).find? (fun r => r.id == id)
      = some { reg with status := .pending, approved_date := none, approved_by := none } := by
  rw [restoreRegistration, find?_applyTo id restoreUpdate (fun _ => rfl) store, hfind,
    Option.map_some']
  rfl

/-- Concrete approved registration for the C4 witness. -/
def regC4 : Registration :=
  { id := "r4", customer_id := "CUST4", full_name := "Bob", mobile_number := "444"
  , address := "addr4", status := .approved, fee := 100, created_at := 0
  , approved_date := some 50, approved_by := some "eva", expiry_date := some 777
  , category_id := "c4", categories := none, panchayaths := none }

/-- Witness for C4 at the concrete approved registration `regC4`. -/
theorem c4_restore_witness :
    (restoreRegistration [regC4] "r4").find? (fun r => r.id == "r4")
      = some { regC4 with status := .pending, approved_date := none, approved_by := none } :=
  c4_restore [regC4] "r4" regC4 (by decide) (Or.inl rfl)

/-! ### Claim C5 -/

/-- Invariant: `approved_date` and `approved_by` are both null or both set. -/
def approvalSync (r : Registration) : Prop :=
  r.approved_date = none ↔ r.approved_by = none

/-- Claim C5: every lifecycle operation preserves the both-null-or-both-set
invariant on `approved_date`/`approved_by`: a status update (approve writes
both together, any other status touches neither) and restore (clears both). -/
theorem c5_lifecycle_invariant (store : List Registration) (cats : List Category)
    (id : String) (now : Int) (st : Status)
    (h : ∀ r ∈ store, approvalSync r) :
    (∀ r ∈ updateRegistrationStatus store cats id st now, approvalSync r) ∧
    (∀ r ∈ restoreRegistration store id, approvalSync r) ∧
    (st ≠ .approved → ∀ r ∈ store,
      (statusUpdate st now (newExpiryFor store cats id st now) r).approved_date
          = r.approved_date ∧
      (statusUpdate st now (newExpiryFor store cats id st now) r).approved_by
          = r.approved_by) := by
  refine ⟨?_, ?_, ?_⟩
  · intro r hr
    rw [updateRegistrationStatus, applyTo] at hr
    obtain ⟨r0, hr0, rfl⟩ := List.mem_map.mp hr
    by_cases hid2 : (r0.id == id) = true
    · by_cases hap : st = Status.approved
      · simp [hid2, hap, statusUpdate, approvalSync]
      · simpa [hid2, hap, statusUpdate, approvalSync] using h r0 hr0
    · simpa [hid2] using h r0 hr0
  · intro r hr
    rw [restoreRegistration, applyTo] at hr
    obtain ⟨r0, hr0, rfl⟩ := List.mem_map.mp hr
    by_cases hid2 : (r0.id == id) = true
    · simp [hid2, restoreUpdate, approvalSync]
    · simpa [hid2] using h r0 hr0
  · intro hne r _
    simp [statusUpdate, hne]

/-- Concrete pending registration for the C5 witness. -/
def regC5 : Registration :=
  { id := "r5", customer_id := "CUST5", full_name := "Carol", mobile_number := "555"
  , address := "addr5", status := .pending, fee := 10, created_at := 0
  , approved_date := none, approved_by := none, expiry_date := none
  , category_id := "c5", categories := none, panchayaths := none }

/-- Witness for C5 on a one-element store satisfying the invariant. -/
theorem c5_lifecycle_invariant_witness :
    (∀ r ∈ updateRegistrationStatus [regC5] [] "r5" .approved 1000, approvalSync r) ∧
    (∀ r ∈ restoreRegistration [regC5] "r5", approvalSync r) ∧
    (Status.approved ≠ Status.approved → ∀ r ∈ [regC5],
      (statusUpdate .approved 1000 (newExpiryFor [regC5] [] "r5" .approved 1000) r).approved_date
          = r.approved_date ∧
      (statusUpdate .approved 1000 (newExpiryFor [regC5] [] "r5" .approved 1000) r).approved_by
          = r.approved_by) :=
  c5_lifecycle_invariant [regC5] [] "r5" 1000 .approved
    (fun r hr => by
      rcases List.mem_singleton.mp hr with rfl
      show regC5.approved_date = none ↔ regC5.approved_by = none
      exact ⟨fun _ => rfl, fun _ => rfl⟩)

/-! ### Claim C2 -/

/-- Claim C2: for a non-approved registration the ad-hoc expiry filter with a
threshold `N > 0` matches exactly when `0 ≤ days_remaining ≤ N`, and with
threshold `0` exactly when `days_remaining ≤ 0` (arbitrarily negative values
included); an approved registration matches no threshold. -/
theorem c2_expiry_filter (reg : Registration) (now : Int) (n : Nat) :
    (reg.status = .approved → matchesExpiry reg now (some n) = false) ∧
    (reg.status ≠ .approved → n ≠ 0 →
      (matchesExpiry reg now (some n) = true ↔
        0 ≤ daysLeftMs now reg.expiry_date ∧ daysLeftMs now reg.expiry_date ≤ (n : Int))) ∧
    (reg.status ≠ .approved →
      (matchesExpiry reg now (some 0) = true ↔ daysLeftMs now reg.expiry_date ≤ 0)) := by
  refine ⟨?_, ?_, ?_⟩
  · intro h
    simp [matchesExpiry, h]
  · intro h hn
    simp only [matchesExpiry, if_neg h, if_neg hn, Bool.and_eq_true, decide_eq_true_eq]
    exact and_comm
  · intro h
    simp [matchesExpiry, h]

/-- Concrete pending registration for the C2 witness: 3 days remaining at time 0. -/
def regC2 : Registration :=
  { id := "r2", customer_id := "CUST2", full_name := "Dan", mobile_number := "222"
  , address := "addr2", status := .pending, fee := 0, created_at := 0
  , approved_date := none, approved_by := none, expiry_date := some (3 * 86400000)
  , category_id := "c2", categories := none, panchayaths := none }

/-- Witness for C2: `regC2` (3 days remaining) matches threshold 5. -/
theorem c2_expiry_filter_witness : matchesExpiry regC2 0 (some 5) = true :=
  ((c2_expiry_filter regC2 0 5).2.1 (by decide) (by decide)).mpr (by decide)

/-! ### Claim C3 -/

/-- Claim C3: with an expiry instant `e`, `days_remaining` is the exact ceiling
of the raw millisecond difference over one day, characterized by
`days_remaining ≤ d ↔ e − now ≤ d·day`; hence `expired` (`≤ 0`) holds exactly
when `e ≤ now`, `expiring-soon` (`0 < · ≤ 3`) exactly when
`now < e ≤ now + 3 days`, and `normal` (`> 3`) exactly when
`now + 3 days < e`.  Every entry processed by the notification fetch comes from
a pending registration, so approved registrations are never bucketed, and an
approved registration matches no expiry-filter threshold. -/
theorem c3_classifier (now e : Int) (reg : Registration) (store : List Registration)
    (he : reg.expiry_date = some e) :
    (∀ d : Int, daysLeftMs now reg.expiry_date ≤ d ↔ e - now ≤ d * msPerDay) ∧
    (daysLeftMs now reg.expiry_date ≤ 0 ↔ e ≤ now) ∧
    ((0 < daysLeftMs now reg.expiry_date ∧ daysLeftMs now reg.expiry_date ≤ 3) ↔
      (now < e ∧ e ≤ now + 3 * msPerDay)) ∧
    (3 < daysLeftMs now reg.expiry_date ↔ now + 3 * msPerDay < e) ∧
    (∀ p ∈ processRegs store now,
      ∃ r ∈ store, r.status = .pending ∧ p = processReg now r) ∧
    (reg.status = .approved → ∀ m : Nat, matchesExpiry reg now (some m) = false) := by
  have hgal : ∀ d : Int, daysLeftMs now reg.expiry_date ≤ d ↔ e - now ≤ d * msPerDay := by
    intro d
    rw [daysLeftMs, he]
    exact ceilDiv_le_iff _ _ d msPerDay_pos
  have h0 : daysLeftMs now reg.expiry_date ≤ 0 ↔ e ≤ now := by
    rw [hgal 0, zero_mul]
    omega
  have hle3 : daysLeftMs now reg.expiry_date ≤ 3 ↔ e ≤ now + 3 * msPerDay := by
    rw [hgal 3]
    omega
  have hpos : 0 < daysLeftMs now reg.expiry_date ↔ now < e := by
    rw [← not_le, ← not_le, h0]
  have hgt3 : 3 < daysLeftMs now reg.expiry_date ↔ now + 3 * msPerDay < e := by
    rw [← not_le, ← not_le, hle3]
  refine ⟨hgal, h0, and_congr hpos hle3, hgt3, ?_, ?_⟩
  · intro p hp
    rw [processRegs] at hp
    obtain ⟨r, hr, rfl⟩ := List.mem_map.mp hp
    obtain ⟨hrs, hrp⟩ := List.mem_filter.mp hr
    exact ⟨r, hrs, of_decide_eq_true hrp, rfl⟩
  · intro h m
    simp [matchesExpiry, h]

/-- Concrete pending registration for the C3 witness: expiry exactly 3 days
after the reference instant 0. -/
def regC3 : Registration :=
  { id := "r3", customer_id := "CUST3", full_name := "Fay", mobile_number := "333"
  , address := "addr3", status := .pending, fee := 0, created_at := 0
  , approved_date := none, approved_by := none, expiry_date := some (3 * 86400000)
  , category_id := "c3", categories := none, panchayaths := none }

/-- Witness for C3: at `now = 0` a registration expiring in exactly 3 days is
classified expiring-soon (`0 < days_remaining ≤ 3`). -/
theorem c3_classifier_witness :
    0 < daysLeftMs 0 regC3.expiry_date ∧ daysLeftMs 0 regC3.expiry_date ≤ 3 :=
  ((c3_classifier 0 (3 * 86400000) regC3 [regC3] rfl).2.2.1).mpr (by decide)

/-! ### Claim C9 -/

/-- Concrete pending registration with null `expiry_date` for claim C9. -/
def regC9 : Registration :=
  { id := "r9", customer_id := "CUST9", full_name := "Eve", mobile_number := "999"
  , address := "addr9", status := .pending, fee := 0, created_at := 0
  , approved_date := none, approved_by := none, expiry_date := none
  , category_id := "c9", categories := none, panchayaths := none }

/-- Claim C9 fails as stated: with a null `expiry_date`, `new Date(null)` is
the Unix epoch rather than an invalid date, so at `now` = 1 day after the epoch
the pending registration `regC9` has `days_remaining = -1`, IS placed in the
expired bucket, and DOES match the ad-hoc threshold 0. -/
theorem c9_counterexample :
    daysLeftMs 86400000 regC9.expiry_date = -1 ∧
    expiredList [regC9] 86400000 = [processReg 86400000 regC9] ∧
    matchesExpiry regC9 86400000 (some 0) = true := by
  refine ⟨by decide, by decide, by decide⟩

/-- Claim C9 (amended): a null `expiry_date` parses as the Unix epoch, so
`days_remaining = ceil((0 − now)/day)`; for any `now` after the epoch this is
`≤ 0`, hence such a pending registration is placed in the expired notification
bucket and a non-approved one matches the ad-hoc threshold 0, while it matches
no positive threshold once `days_remaining < 0`. -/
theorem c9_null_expiry (reg : Registration) (store : List Registration)
    (now : Int) (n : Nat) (hexp : reg.expiry_date = none) :
    daysLeftMs now reg.expiry_date = ceilDiv (0 - now) msPerDay ∧
    (0 < now → daysLeftMs now reg.expiry_date ≤ 0) ∧
    (0 < now → reg.status ≠ .approved → matchesExpiry reg now (some 0) = true) ∧
    (daysLeftMs now reg.expiry_date < 0 → 0 < n → reg.status ≠ .approved →
      matchesExpiry reg now (some n) = false) ∧
    (reg ∈ store → reg.status = .pending → 0 < now →
      processReg now reg ∈ expiredList store now) := by
  have hd : daysLeftMs now reg.expiry_date = ceilDiv (0 - now) msPerDay := by
    rw [daysLeftMs, hexp]
    rfl
  have hle : 0 < now → daysLeftMs now reg.expiry_date ≤ 0 := by
    intro h
    rw [hd, ceilDiv_le_iff _ _ _ msPerDay_pos, zero_mul]
    omega
  refine ⟨hd, hle, ?_, ?_, ?_⟩
  · intro h hs
    have h0 := hle h
    simp only [matchesExpiry, if_neg hs, if_pos rfl]
    simpa using h0
  · intro hneg hn hs
    have hn0 : n ≠ 0 := by omega
    have hdec : decide (0 ≤ daysLeftMs now reg.expiry_date) = false := by
      simp only [decide_eq_false_iff_not, not_le]
      exact hneg
    simp only [matchesExpiry, if_neg hs, if_neg hn0, hdec, Bool.and_false]
  · intro hmem hpend hnow
    have hin : processReg now reg ∈ processRegs store now := by
      rw [processRegs]
      exact List.mem_map.mpr ⟨reg, List.mem_filter.mpr ⟨hmem, decide_eq_true hpend⟩, rfl⟩
    have hdle : (processReg now reg).days_remaining ≤ 0 := hle hnow
    rw [expiredList, List.mem_insertionSort]
    exact List.mem_filter.mpr ⟨hin, decide_eq_true hdle⟩

/-- Witness for the amended C9: the concrete null-expiry registration lands in
the expired bucket one day after the epoch. -/
theorem c9_null_expiry_witness :
    processReg 86400000 regC9 ∈ expiredList [regC9] 86400000 :=
  (c9_null_expiry regC9 [regC9] 86400000 1 rfl).2.2.2.2 (by decide) rfl (by decide)

/-! ### Claim C6 -/

/-- Claim C6: the CSV export emits the exact header row
`Name,Mobile Number,Panchayath,Category,Registered Date,Expiry Date`, one row
per registration with the name, panchayath and category fields wrapped in
double quotes, the literal `N/A` for missing panchayath/category/expiry,
dates rendered day/month/year with two-digit day and month, and the download
name `registrations-export-<yyyy-MM-dd>.csv`. -/
theorem c6_csv_export (toCal : Int → SimpleDate) (regs : List Registration)
    (today : SimpleDate) :
    csvData toCal regs
      = joinWith "\n"
          ("Name,Mobile Number,Panchayath,Category,Registered Date,Expiry Date"
            :: regs.map (csvRow toCal)) ∧
    (∀ reg : Registration, csvRow toCal reg =
      "\"" ++ reg.full_name ++ "\"" ++ "," ++ reg.mobile_number ++ "," ++
      ("\"" ++ jsOrString (reg.panchayaths.map (fun p => p.name)) "N/A" ++ "\"") ++ "," ++
      ("\"" ++ jsOrString (reg.categories.map (fun c => c.name_english)) "N/A" ++ "\"") ++
      "," ++
      (pad2 (toCal reg.created_at).day ++ "/" ++ pad2 (toCal reg.created_at).month ++ "/" ++
        toString (toCal reg.created_at).year) ++ "," ++
      (match reg.expiry_date with
        | some e => pad2 (toCal e).day ++ "/" ++ pad2 (toCal e).month ++ "/" ++
            toString (toCal e).year
        | none => "N/A")) ∧
    exportFileName today
      = "registrations-export-" ++
          (toString today.year ++ "-" ++ pad2 today.month ++ "-" ++ pad2 today.day) ++
          ".csv" := by
  refine ⟨rfl, ?_, rfl⟩
  intro reg
  cases hexp : reg.expiry_date with
  | none => simp [csvRow, joinWith, formatDateDMY, hexp, String.append_assoc]
  | some e => simp [csvRow, joinWith, formatDateDMY, hexp, String.append_assoc]

/-! ### Claim C7 -/

/-- Claim C7: on each trigger the aggregator rebuilds, from pending
registrations only, an expired bucket (`days_remaining ≤ 0`) and an
expiring-soon bucket (`0 < days_remaining ≤ 3`), each sorted ascending by
`days_remaining` (most overdue first), and the combined alert list it exposes
is exactly the expired list followed by the expiring-soon list. -/
theorem c7_notification_aggregator (store : List Registration) (now : Int) :
    combinedAlertList store now = expiredList store now ++ expiringList store now ∧
    (expiredList store now).Sorted byDays ∧
    (expiringList store now).Sorted byDays ∧
    List.Perm (expiredList store now)
      ((processRegs store now).filter (fun p => decide (p.days_remaining ≤ 0))) ∧
    List.Perm (expiringList store now)
      ((processRegs store now).filter
        (fun p => decide (0 < p.days_remaining) && decide (p.days_remaining ≤ 3))) ∧
    ∀ p ∈ combinedAlertList store now,
      ∃ r ∈ store, r.status = .pending ∧ p = processReg now r := by
  refine ⟨rfl, List.sorted_insertionSort _ _, List.sorted_insertionSort _ _,
    List.perm_insertionSort _ _, List.perm_insertionSort _ _, ?_⟩
  intro p hp
  rw [combinedAlertList, List.mem_append] at hp
  have hp2 : p ∈ processRegs store now := by
    rcases hp with hp | hp
    · rw [expiredList, List.mem_insertionSort] at hp
      exact (List.mem_filter.mp hp).1
    · rw [expiringList, List.mem_insertionSort] at hp
      exact (List.mem_filter.mp hp).1
  rw [processRegs] at hp2
  obtain ⟨r, hr, rfl⟩ := List.mem_map.mp hp2
  obtain ⟨hrs, hrp⟩ := List.mem_filter.mp hr
  exact ⟨r, hrs, of_decide_eq_true hrp, rfl⟩

/-- Concrete pending registration for the C7 witness: 1 day remaining at time 0. -/
def regC7 : Registration :=
  { id := "r7", customer_id := "CUST7", full_name := "Hal", mobile_number := "777"
  , address := "addr7", status := .pending, fee := 0, created_at := 0
  , approved_date := none, approved_by := none, expiry_date := some 86400000
  , category_id := "c7", categories := none, panchayaths := none }

/-- Witness for C7: the concrete alert entry of `regC7` traces back to a
pending registration of the store. -/
theorem c7_notification_aggregator_witness :
    ∃ r ∈ [regC7], r.status = .pending ∧ processReg 0 regC7 = processReg 0 r :=
  (c7_notification_aggregator [regC7] 0).2.2.2.2.2 (processReg 0 regC7) (by decide)

/-! ### Claim C10 -/

/-- Claim C10: a successfully submitted category transfer request is inserted
with status pending, `from_category_id` equal to the registration's current
category, `to_category_id` equal to the selected category — drawn from the
active categories excluding the current one, hence always different from
`from_category_id` — a snapshot of the registration's mobile number, customer
id and full name, and a null reason exactly when the free-text reason is
empty. -/
theorem c10_transfer_request (catStore : List Category) (reg : Registration)
    (sel why2 : String) (req : TransferRequest)
    (hsel : sel ∈ (transferCategories catStore reg).map (fun c => c.id))
    (hsub : submitTransferRequest reg sel why2 = some req) :
    req.status = .pending ∧
    req.registration_id = reg.id ∧
    req.from_category_id = reg.category_id ∧
    req.to_category_id = sel ∧
    req.to_category_id ≠ req.from_category_id ∧
    req.mobile_number = reg.mobile_number ∧
    req.customer_id = reg.customer_id ∧
    req.full_name = reg.full_name ∧
    (why2 = "" → req.reason = none) ∧
    (why2 ≠ "" → req.reason = some why2) := by
  obtain ⟨c, hc, rfl⟩ := List.mem_map.mp hsel
  obtain ⟨hcmem, hcp⟩ := List.mem_filter.mp hc
  have hne : c.id ≠ reg.category_id := by
    simp only [Bool.and_eq_true, bne_iff_ne] at hcp
    exact hcp.2
  by_cases hempty : c.id = ""
  · rw [submitTransferRequest, if_pos hempty] at hsub
    exact absurd hsub (by simp)
  · rw [submitTransferRequest, if_neg hempty] at hsub
    obtain rfl := Option.some_inj.mp hsub
    refine ⟨rfl, rfl, rfl, rfl, hne, rfl, rfl, rfl, ?_, ?_⟩
    · intro h
      simp [h]
    · intro h
      simp [h]

/-- Concrete transfer-eligible category for the C10 witness. -/
def catC10 : Category := { id := "c2", expiry_days := some 30, is_active := true }

/-- Concrete registration for the C10 witness, currently in category c1. -/
def regC10 : Registration :=
  { id := "r10", customer_id := "CUST10", full_name := "Gus", mobile_number := "101"
  , address := "addr10", status := .approved, fee := 0, created_at := 0
  , approved_date := some 1, approved_by := some "eva", expiry_date := some 999
  , category_id := "c1", categories := none, panchayaths := none }

/-- The transfer request produced by the C10 witness submission. -/
def reqC10 : TransferRequest :=
  { registration_id := "r10", from_category_id := "c1", to_category_id := "c2"
  , mobile_number := "101", customer_id := "CUST10", full_name := "Gus"
  , reason := none, status := .pending }

/-- Witness for C10 at a concrete submission with an empty reason. -/
theorem c10_transfer_request_witness :
    reqC10.status = .pending ∧
    reqC10.registration_id = regC10.id ∧
    reqC10.from_category_id = regC10.category_id ∧
    reqC10.to_category_id = "c2" ∧
    reqC10.to_category_id ≠ reqC10.from_category_id ∧
    reqC10.mobile_number = regC10.mobile_number ∧
    reqC10.customer_id = regC10.customer_id ∧
    reqC10.full_name = regC10.full_name ∧
    ("" = "" → reqC10.reason = none) ∧
    ("" ≠ "" → reqC10.reason = some "") :=
  c10_transfer_request [catC10] regC10 "c2" "" reqC10 (by decide) (by decide)

/-! ### Claim C8 -/

/-- Claim C8: when a bucket is non-empty and `acknowledged` is false, a
dependency change arms the fixed 2000 ms auto-surface timer; an armed timer
that elapses surfaces the alert; the timer is cancelled on teardown and when
the condition clears; `acknowledged` is sticky, and while it holds no event
arms a timer again and elapsing time never surfaces the alert, while the
counts keep updating and a manual bell click still opens the alert whenever a
bucket is non-empty. -/
theorem c8_alert_autosurface (s : BellState) (ne nx t : Nat) :
    (s.mounted = true → s.acknowledged = false → (0 < ne ∨ 0 < nx) →
      ¬(ne = s.expiredCount ∧ nx = s.expiringCount) →
      (bellStep s (.refresh ne nx)).timer = some 2000) ∧
    (∀ rem, s.timer = some rem → rem ≤ t →
      (bellStep s (.elapse t)).showAlert = true ∧ (bellStep s (.elapse t)).timer = none) ∧
    ((bellStep s .teardown).timer = none) ∧
    (s.mounted = true → ¬(0 = s.expiredCount ∧ 0 = s.expiringCount) →
      (bellStep s (.refresh 0 0)).timer = none) ∧
    (∀ e, s.acknowledged = true → (bellStep s e).acknowledged = true) ∧
    (∀ e, s.acknowledged = true → s.timer = none → (bellStep s e).timer = none) ∧
    (s.timer = none → bellStep s (.elapse t) = s) ∧
    (s.mounted = true → ¬(ne = s.expiredCount ∧ nx = s.expiringCount) →
      (bellStep s (.refresh ne nx)).expiredCount = ne ∧
      (bellStep s (.refresh ne nx)).expiringCount = nx) ∧
    (s.mounted = true → (0 < s.expiredCount ∨ 0 < s.expiringCount) →
      (bellStep s .click).showAlert = true) := by
  refine ⟨?_, ?_, ?_, ?_, ?_, ?_, ?_, ?_, ?_⟩
  · intro hm hack hnonempty hdep
    rcases hnonempty with h | h <;>
      simp [bellStep, runAlertEffect, bellCond, hm, hack, hdep, h]
  · intro rem hrem hle
    refine ⟨?_, ?_⟩ <;> simp [bellStep, hrem, hle]
  · simp [bellStep]
  · intro hm hdep
    simp [bellStep, runAlertEffect, bellCond, hm, hdep]
  · intro e hack
    cases e with
    | refresh ne2 nx2 =>
      simp only [bellStep]
      split_ifs <;> simp [runAlertEffect, hack]
    | elapse t2 =>
      cases htimer : s.timer with
      | none => simpa [bellStep, htimer] using hack
      | some rem =>
        simp only [bellStep, htimer]
        split_ifs <;> exact hack
    | acknowledge =>
      simp only [bellStep]
      split_ifs <;> simp [runAlertEffect, hack]
    | click =>
      simp only [bellStep]
      split_ifs <;> exact hack
    | closeAlert => exact hack
    | teardown => exact hack
  · intro e hack htimer
    cases e with
    | refresh ne2 nx2 =>
      simp only [bellStep]
      split_ifs <;> simp [runAlertEffect, bellCond, hack, htimer]
    | elapse t2 => simp [bellStep, htimer]
    | acknowledge =>
      simp only [bellStep]
      split_ifs <;> simp [runAlertEffect, bellCond, hack, htimer]
    | click =>
      simp only [bellStep]
      split_ifs <;> exact htimer
    | closeAlert => exact htimer
    | teardown => rfl
  · intro htimer
    simp [bellStep, htimer]
  · intro hm hdep
    refine ⟨?_, ?_⟩ <;> simp [bellStep, runAlertEffect, hm, hdep]
  · intro hm hbuck
    rcases hbuck with h | h <;> simp [bellStep, hm, h]

/-- Initial bell state for the C8 witness: mounted, unacknowledged, empty. -/
def bellS8 : BellState :=
  { expiredCount := 0, expiringCount := 0, acknowledged := false, showAlert := false
  , timer := none, mounted := true }

/-- Witness for C8: a fetch that reports one expired registration arms the
2000 ms auto-surface timer. -/
theorem c8_alert_autosurface_witness :
    (bellStep bellS8 (.refresh 1 0)).timer = some 2000 :=
  (c8_alert_autosurface bellS8 1 0 0).1 rfl rfl (Or.inl (by decide)) (by decide)

end RegApp
